import Mathlib

/-!
Verification of `lucidlink_direct_links`

A shallow embedding of `src/lucidlink_direct_links/direct_link_manager.py`
(class `DirectLinkManager`) together with proofs about the claims of the
specification.

Paths are modelled as `List Char` (Python `str` operations used by the code —
`startswith`, slicing by character count, `lstrip`/`rstrip` — are all
character-based).  `urllib.parse.quote` operates on the UTF-8 bytes of the
string; bytes are modelled as `Nat` values `< 256`.

The HTTP daemon is modelled as a *script*: a function `Nat → Outcome` giving,
for each request the manager issues (in order), either a transport-level
failure (`aiohttp.ClientError` while performing the request) or a well-formed
HTTP response with a status code and a parsed JSON body (an association list).
-/

namespace LucidLink

/-- Python `s.rstrip('/')`: remove trailing `'/'` characters.
Applied to the mount point at construction (`__init__`, line 34). -/
def rstripSlashes (s : List Char) : List Char :=
  (s.reverse.dropWhile (fun c => c = '/')).reverse

/-- Python `s.lstrip('/')`: remove leading `'/'` characters. -/
def lstripSlashes (s : List Char) : List Char :=
  s.dropWhile (fun c => c = '/')

/-- `DirectLinkManager._get_relative_path` (lines 69–73): if `path` starts
with the stored mount point (already `rstrip`-ped of `'/'`), drop that prefix
and strip leading `'/'`; otherwise just strip leading `'/'`.
`mount` is the *stored* mount point, i.e. `mount_point.rstrip('/')`. -/
def get_relative_path (mount path : List Char) : List Char :=
  if mount.isPrefixOf path then lstripSlashes (path.drop mount.length)
  else lstripSlashes path

end LucidLink

namespace LucidLink

/-! ## Percent-encoding (`_encode_path_for_url`, lines 55–67)

`urllib.parse.quote(path, safe="/[](),-_ .")` UTF-8-encodes the string and
then percent-escapes every byte that is neither in the always-safe set of `quote`
(ASCII letters, digits, `_.-~`) nor in the given `safe` string. -/

/-- A byte `quote` leaves unescaped: ASCII alphanumerics, the always-safe
punctuation `_.-~`, and the characters of the `safe` argument
`"/[](),-_ ."` of the source (line 66). -/
def isSafeByte (b : Nat) : Bool :=
  (65 ≤ b ∧ b ≤ 90) ∨ (97 ≤ b ∧ b ≤ 122) ∨ (48 ≤ b ∧ b ≤ 57) ∨
    b = 95 ∨ b = 46 ∨ b = 45 ∨ b = 126 ∨
    b = 47 ∨ b = 91 ∨ b = 93 ∨ b = 40 ∨ b = 41 ∨ b = 44 ∨ b = 32

/-- Upper-case hexadecimal digit for `n < 16`, as emitted by `quote`. -/
def hexUpperDigit (n : Nat) : Char :=
  if n < 10 then Char.ofNat (48 + n) else Char.ofNat (55 + n)

/-- Percent-encode a byte sequence: safe bytes become their ASCII character,
every other byte becomes `%XY` with upper-case hex digits. -/
def quoteBytes (bs : List Nat) : List Char :=
  bs.flatMap (fun b =>
    if isSafeByte b then [Char.ofNat b]
    else ['%', hexUpperDigit (b / 16), hexUpperDigit (b % 16)])

/-- UTF-8 encoding of a Unicode scalar value (model of Python
`str.encode("utf-8")`, applied per character). -/
def utf8EncodeCharM (v : Nat) : List Nat :=
  if v < 128 then [v]
  else if v < 2048 then [192 + v / 64, 128 + v % 64]
  else if v < 65536 then [224 + v / 4096, 128 + v / 64 % 64, 128 + v % 64]
  else [240 + v / 262144, 128 + v / 4096 % 64, 128 + v / 64 % 64, 128 + v % 64]

/-- UTF-8 bytes of a character sequence. -/
def utf8Encode (s : List Char) : List Nat :=
  (s.map (fun c => utf8EncodeCharM c.toNat)).flatten

/-- `DirectLinkManager._encode_path_for_url` (lines 55–67):
`quote(path, safe="/[](),-_ .")`. -/
def encode_path_for_url (s : List Char) : List Char :=
  quoteBytes (utf8Encode s)

/-! ### Percent-decoding (model of `urllib.parse.unquote`) -/

/-- Value of a hexadecimal digit character (both cases), `none` otherwise. -/
def hexVal (c : Char) : Option Nat :=
  if 48 ≤ c.toNat ∧ c.toNat ≤ 57 then some (c.toNat - 48)
  else if 65 ≤ c.toNat ∧ c.toNat ≤ 70 then some (c.toNat - 55)
  else if 97 ≤ c.toNat ∧ c.toNat ≤ 102 then some (c.toNat - 87)
  else none

/-- Percent-decode a character sequence to bytes: every `%XY` with hex digits
`X`, `Y` yields the byte `16*X + Y`; any other character yields its own code
point (all characters produced by `quoteBytes` are ASCII). -/
def unquoteBytes : List Char → List Nat
  | [] => []
  | c :: rest =>
    if c = '%' then
      match rest with
      | x :: y :: rest2 =>
        match hexVal x, hexVal y with
        | some hx, some hy => (16 * hx + hy) :: unquoteBytes rest2
        | _, _ => c.toNat :: unquoteBytes (x :: y :: rest2)
      | short => c.toNat :: unquoteBytes short
    else c.toNat :: unquoteBytes rest

/-- Decode one continuation byte after a 2-byte lead `b` (continuation bytes
are checked to lie in `[128, 192)`; `none` on a malformed sequence). -/
def utf8Cont1 (b : Nat) : List Nat → Option (Nat × List Nat)
  | b1 :: rest1 =>
    if 128 ≤ b1 ∧ b1 < 192 then some ((b - 192) * 64 + (b1 - 128), rest1) else none
  | [] => none

/-- Decode two continuation bytes after a 3-byte lead `b`. -/
def utf8Cont2 (b : Nat) : List Nat → Option (Nat × List Nat)
  | b1 :: b2 :: rest2 =>
    if (128 ≤ b1 ∧ b1 < 192) ∧ (128 ≤ b2 ∧ b2 < 192) then
      some ((b - 224) * 4096 + (b1 - 128) * 64 + (b2 - 128), rest2)
    else none
  | _ => none

/-- Decode three continuation bytes after a 4-byte lead `b`. -/
def utf8Cont3 (b : Nat) : List Nat → Option (Nat × List Nat)
  | b1 :: b2 :: b3 :: rest3 =>
    if (128 ≤ b1 ∧ b1 < 192) ∧ (128 ≤ b2 ∧ b2 < 192) ∧ (128 ≤ b3 ∧ b3 < 192) then
      some ((b - 240) * 262144 + (b1 - 128) * 4096 + (b2 - 128) * 64 + (b3 - 128), rest3)
    else none
  | _ => none

/-- One UTF-8 decoding step: given a lead byte `b` and the remaining bytes,
return the decoded scalar value and the bytes left over. -/
def utf8Step (b : Nat) (rest : List Nat) : Option (Nat × List Nat) :=
  if b < 128 then some (b, rest)
  else if b < 192 then none
  else if b < 224 then utf8Cont1 b rest
  else if b < 240 then utf8Cont2 b rest
  else utf8Cont3 b rest

/-- UTF-8 decoding of a byte sequence, with a fuel argument bounding the
number of decoded characters (each decoded character consumes at least one
byte, so fuel `bs.length` always suffices). -/
def utf8DecodeAux : Nat → List Nat → Option (List Char)
  | _, [] => some []
  | 0, _ :: _ => none
  | fuel + 1, b :: rest =>
    match utf8Step b rest with
    | some (v, rest1) => (utf8DecodeAux fuel rest1).map (fun cs => Char.ofNat v :: cs)
    | none => none

/-- UTF-8 decoding of a byte sequence (`none` on any malformed sequence). -/
def utf8DecodeM (bs : List Nat) : Option (List Char) :=
  utf8DecodeAux bs.length bs

/-- Full percent-decoding of an encoded path back to characters
(model of `urllib.parse.unquote`): percent-decode to bytes, then UTF-8-decode. -/
def percentDecode (s : List Char) : Option (List Char) :=
  utf8DecodeM (unquoteBytes s)

/-- The bytes that appear percent-escaped (`%XY`) in a character sequence. -/
def escapedBytes : List Char → List Nat
  | [] => []
  | c :: rest =>
    if c = '%' then
      match rest with
      | x :: y :: rest2 =>
        match hexVal x, hexVal y with
        | some hx, some hy => (16 * hx + hy) :: escapedBytes rest2
        | _, _ => escapedBytes (x :: y :: rest2)
      | short => escapedBytes short
    else escapedBytes rest

end LucidLink

namespace LucidLink

/-! ## The network model

Each request the manager issues is answered by the environment with an
`Outcome`.  A *script* `Nat → Outcome` gives the outcome of the `i`-th
request of a call. -/

/-- Outcome of one `self.session.get(url)` request:
  * `transport e` — an `aiohttp.ClientError` is raised while performing the
    request (connection refused / timeout / reset …); `e` is an opaque tag
    identifying the particular error, so that the failure of the last attempt
    can be talked about;
  * `response status body` — a well-formed HTTP response with the given
    status code whose JSON body parses to the association list `body`. -/
inductive Outcome where
  | transport (e : Nat)
  | response (status : Nat) (body : List (String × String))
  deriving DecidableEq, Repr

/-- An `aiohttp.ClientError` as seen by the retry loop: either a transport
failure, or the `ClientResponseError` raised by `response.raise_for_status()`
on a status ≥ 400 (`ClientResponseError` is a subclass of `ClientError`). -/
inductive ClientErr where
  | transport (e : Nat)
  | badStatus (status : Nat)
  deriving DecidableEq, Repr

/-- An exception reaching the top-level `except Exception` handler of
`_get_direct_link_v2` / `_get_direct_link_v3`:
  * `client e` — a `ClientError` re-raised on the last retry attempt;
  * `sessionNotInitialized` — the `RuntimeError("Session not initialized")`
    raised by `_get_direct_link_v3` (line 148) when `self.session` is `None`;
  * `semaphoreNone` — the `TypeError` raised by
    `async with self._request_semaphore` in `_get_direct_link_v2` (line 110)
    when the semaphore is still `None` (session not opened). -/
inductive Exn where
  | client (e : ClientErr)
  | sessionNotInitialized
  | semaphoreNone
  deriving DecidableEq, Repr

/-- Diagnostic log events emitted by the manager (`logger.…` calls). -/
inductive LogEvent where
  | warnBadRequest
  | errNoFsEntryId
  | errFilespaceNotSet
  | warnNoResult
  | debugGenerated
  | errorCaught (e : Exn)
  deriving DecidableEq, Repr

/-- Result of executing the body of one retry-loop iteration:
the iteration either `return`s a value (with the log events it emitted), or
an `aiohttp.ClientError` is raised inside it. -/
inductive AttemptRes where
  | returned (r : Option String) (logs : List LogEvent)
  | raised (e : ClientErr)
  deriving DecidableEq, Repr

/-- Python truthiness of an optional string (`if fsentry_id:`,
`if not self._filespace:`): `None` and `""` are falsy. -/
def optStrTruthy : Option String → Bool
  | none => false
  | some s => s ≠ ""

/-- The synthesized v2 link `lucid://{filespace}/file/{fsentry_id}`
(lines 99 and 131). -/
def mkLucidLink (filespace fsentryId : String) : String :=
  "lucid://" ++ filespace ++ "/file/" ++ fsentryId

/-- One iteration of the v3 loop body (lines 157-169) applied to the request
outcome: status 400 returns `None` with a warning; any other status ≥ 400
makes `raise_for_status()` raise a `ClientError`; otherwise the JSON body is
consulted for `"result"`, returned verbatim when present. -/
def v3Attempt (o : Outcome) : AttemptRes :=
  match o with
  | .transport e => .raised (.transport e)
  | .response status body =>
    if status = 400 then .returned none [.warnBadRequest]
    else if 400 ≤ status then .raised (.badStatus status)
    else
      match body.lookup "result" with
      | some r => .returned (some r) []
      | none => .returned none [.warnNoResult]

/-- One iteration of the v2 slow-path loop body (lines 113–133): status 400
returns `None` with a warning; other statuses ≥ 400 raise via
`raise_for_status()`; otherwise the body must be non-empty and contain
`"id"` (the check `if not data` and the membership test for the key `id`), then the filespace name must be
truthy, and the link is synthesized from the extracted id. -/
def v2Attempt (filespace : Option String) (o : Outcome) : AttemptRes :=
  match o with
  | .transport e => .raised (.transport e)
  | .response status body =>
    if status = 400 then .returned none [.warnBadRequest]
    else if 400 ≤ status then .raised (.badStatus status)
    else
      match body.lookup "id" with
      | none => .returned none [.errNoFsEntryId]
      | some fsid =>
        if optStrTruthy filespace then
          .returned (some (mkLucidLink ((filespace).getD "") fsid)) [.debugGenerated]
        else .returned none [.errFilespaceNotSet]

/-- Result of running the retry loop inside the semaphore block. -/
structure LoopOut where
  result : Except ClientErr (Option String)
  requests : Nat
  sleeps : Nat
  logs : List LogEvent
  deriving Repr

/-- The retry loop `for attempt in range(self._retry_attempts)` (lines
111–138 / 155–174), started at request index `i` with `n` attempts left:
an iteration that `return`s ends the loop; a `ClientError` on the last
attempt (`attempt == self._retry_attempts - 1`) is re-raised; a `ClientError`
on an earlier attempt is followed by `await asyncio.sleep(self._retry_delay)`
and the next attempt.  With `n = 0` the loop body never runs and the
function falls through, returning `None`. -/
def retryLoopFrom (attempt : Outcome → AttemptRes) (script : Nat → Outcome) :
    Nat → Nat → LoopOut
  | _, 0 => ⟨.ok none, 0, 0, []⟩
  | i, 1 =>
    match attempt (script i) with
    | .returned r logs => ⟨.ok r, 1, 0, logs⟩
    | .raised e => ⟨.error e, 1, 0, []⟩
  | i, n + 2 =>
    match attempt (script i) with
    | .returned r logs => ⟨.ok r, 1, 0, logs⟩
    | .raised _ =>
      let rest := retryLoopFrom attempt script (i + 1) (n + 1)
      ⟨rest.result, rest.requests + 1, rest.sleeps + 1, rest.logs⟩

/-- The construction-time configuration of `DirectLinkManager.__init__`
(lines 12–42).  `mount_point` is stored as given; the stored
(`rstrip('/')`-ped) form is `storedMount`.  `retry_delay` only determines the
duration of each inter-attempt sleep and is not otherwise observable in the
model (sleeps are counted). -/
structure Config where
  port : Nat
  mount_point : List Char
  version : Int
  max_workers : Nat
  retry_attempts : Nat
  filespace : Option String
  deriving DecidableEq, Repr

/-- `self.mount_point = mount_point.rstrip('/')` (line 34). -/
def Config.storedMount (cfg : Config) : List Char :=
  rstripSlashes cfg.mount_point

/-- The v2 URL `http://127.0.0.1:{port}/fsEntry?path={encoded_path}`
(line 108). -/
def v2Url (cfg : Config) (file_path : List Char) : String :=
  "http://127.0.0.1:" ++ toString cfg.port ++ "/fsEntry?path=" ++
    String.mk (encode_path_for_url (get_relative_path cfg.storedMount file_path))

/-- The v3 URL `http://127.0.0.1:{port}/fsEntry/direct-link?path={encoded_path}`
(line 152). -/
def v3Url (cfg : Config) (file_path : List Char) : String :=
  "http://127.0.0.1:" ++ toString cfg.port ++ "/fsEntry/direct-link?path=" ++
    String.mk (encode_path_for_url (get_relative_path cfg.storedMount file_path))

/-- Observable result of one `get_direct_link` call: the returned link (or
`None`), the URLs of the requests issued in order, the number of
inter-attempt sleeps (each of duration `retry_delay`), the number of
semaphore acquisitions, and the log events emitted. -/
structure CallResult where
  link : Option String
  requests : List String
  sleeps : Nat
  acquires : Nat
  logs : List LogEvent
  deriving DecidableEq, Repr

/-- Wrap the loop result of a network path into a `CallResult`: the
top-level `except Exception` handler (lines 140–142 / 176–178) converts a
re-raised exception into a logged error and `None`. -/
def finishNetworkCall (url : String) (lr : LoopOut) : CallResult :=
  match lr.result with
  | .ok r => ⟨r, List.replicate lr.requests url, lr.sleeps, 1, lr.logs⟩
  | .error e =>
    ⟨none, List.replicate lr.requests url, lr.sleeps, 1,
      lr.logs ++ [.errorCaught (.client e)]⟩

/-- `DirectLinkManager._get_direct_link_v2` (lines 90–142).  `sessionOpen`
models whether `__aenter__` has run (it sets both `self.session` and
`self._request_semaphore`).  Fast path: a truthy `fsentry_id` requires a
truthy filespace and synthesizes the link locally, with no request and no
semaphore acquisition.  Slow path: before the session is opened,
`async with self._request_semaphore` on `None` raises a `TypeError`, caught
by the top-level handler (logged, `None`); otherwise the semaphore is
acquired and the retry loop runs against the v2 endpoint. -/
def get_direct_link_v2 (cfg : Config) (sessionOpen : Bool) (file_path : List Char)
    (fsentry_id : Option String) (script : Nat → Outcome) : CallResult :=
  if optStrTruthy fsentry_id then
    if optStrTruthy cfg.filespace then
      ⟨some (mkLucidLink (cfg.filespace.getD "") (fsentry_id.getD "")), [], 0, 0,
        [.debugGenerated]⟩
    else ⟨none, [], 0, 0, [.errFilespaceNotSet]⟩
  else if sessionOpen then
    finishNetworkCall (v2Url cfg file_path)
      (retryLoopFrom (v2Attempt cfg.filespace) script 0 cfg.retry_attempts)
  else ⟨none, [], 0, 0, [.errorCaught .semaphoreNone]⟩

/-- `DirectLinkManager._get_direct_link_v3` (lines 144–178).  Before the
session is opened the explicit `raise RuntimeError("Session not
initialized")` (line 148) fires — and is caught by the same function, whose
top-level `except Exception` handler, which logs it and returns `None`.
Otherwise the semaphore is acquired and the retry loop runs against the v3
endpoint. -/
def get_direct_link_v3 (cfg : Config) (sessionOpen : Bool) (file_path : List Char)
    (script : Nat → Outcome) : CallResult :=
  if sessionOpen then
    finishNetworkCall (v3Url cfg file_path)
      (retryLoopFrom v3Attempt script 0 cfg.retry_attempts)
  else ⟨none, [], 0, 0, [.errorCaught .sessionNotInitialized]⟩

/-- `DirectLinkManager.get_direct_link` (lines 75–88): dispatch on
`self.version == 2`; every other version value goes to the v3 path. -/
def get_direct_link (cfg : Config) (sessionOpen : Bool) (file_path : List Char)
    (fsentry_id : Option String) (script : Nat → Outcome) : CallResult :=
  if cfg.version = 2 then get_direct_link_v2 cfg sessionOpen file_path fsentry_id script
  else get_direct_link_v3 cfg sessionOpen file_path script

/-! ## The concurrency gate

`__aenter__` creates `asyncio.Semaphore(self._max_workers)` (line 46); both
network paths wrap their request loop in `async with self._request_semaphore`
(lines 110 and 154).  The interleaved execution of any number of concurrent
`get_direct_link` calls against this counting semaphore is modelled as a
transition system over aggregate counts of calls in each phase; the
`async with` block guarantees the release transition regardless of how the
block exits. -/

/-- How the `async with self._request_semaphore` block of one call exits:
normal return, a `return None` failure, or a raised exception. -/
inductive ReqOutcome where
  | success
  | failure
  | exception
  deriving DecidableEq, Repr

/-- Aggregate state of the semaphore and of all concurrent resolve calls:
`avail` free slots, `waiting` calls suspended at the `async with`,
`inFlight` calls holding a slot (their requests may be outstanding),
`finished` calls that have released their slot. -/
structure GateState where
  avail : Nat
  waiting : Nat
  inFlight : Nat
  finished : Nat
  deriving DecidableEq, Repr

/-- One scheduler step of the cooperative-concurrency system:
a new network-path call arrives at the gate, a waiting call acquires a free
slot, or an in-flight call finishes its block (on success, failure, or
exception alike) and releases its slot. -/
inductive GateStep : GateState → GateState → Prop where
  | arrive (s : GateState) :
      GateStep s ⟨s.avail, s.waiting + 1, s.inFlight, s.finished⟩
  | acquire (s : GateState) (hw : 0 < s.waiting) (ha : 0 < s.avail) :
      GateStep s ⟨s.avail - 1, s.waiting - 1, s.inFlight + 1, s.finished⟩
  | release (s : GateState) (o : ReqOutcome) (hf : 0 < s.inFlight) :
      GateStep s ⟨s.avail + 1, s.waiting, s.inFlight - 1, s.finished + 1⟩

/-- States reachable from the freshly created semaphore of capacity `maxW`
(no call yet started) by any interleaving of steps. -/
inductive GateReachable (maxW : Nat) : GateState → Prop where
  | init : GateReachable maxW ⟨maxW, 0, 0, 0⟩
  | step (s t : GateState) : GateReachable maxW s → GateStep s t → GateReachable maxW t

end LucidLink

namespace LucidLink

/-! ## Helper lemmas -/

theorem char_toNat_lt_scalarBound (c : Char) : c.toNat < 1114112 := by
  show c.val.toNat < 1114112
  rcases c.valid with h | ⟨_, h⟩ <;> omega

set_option maxRecDepth 8192 in
theorem safeByte_char_all :
    ∀ b : Nat, b < 256 → isSafeByte b = true →
      (Char.ofNat b).toNat = b ∧ Char.ofNat b ≠ '%' := by
  decide

set_option maxRecDepth 8192 in
theorem hexDigit_val : ∀ n : Nat, n < 16 → hexVal (hexUpperDigit n) = some n := by
  decide

theorem hexPair_correct (b : Nat) (hlt : b < 256) :
    hexVal (hexUpperDigit (b / 16)) = some (b / 16) ∧
      hexVal (hexUpperDigit (b % 16)) = some (b % 16) :=
  ⟨hexDigit_val (b / 16) (by omega), hexDigit_val (b % 16) (by omega)⟩

theorem unquoteBytes_safe_cons (b : Nat) (hlt : b < 256) (hs : isSafeByte b = true)
    (rest : List Char) :
    unquoteBytes (Char.ofNat b :: rest) = b :: unquoteBytes rest := by
  obtain ⟨h1, h2⟩ := safeByte_char_all b hlt hs
  rw [unquoteBytes.eq_def]
  simp [h1, h2]

theorem unquoteBytes_escape_cons (b : Nat) (hlt : b < 256) (rest : List Char) :
    unquoteBytes ('%' :: hexUpperDigit (b / 16) :: hexUpperDigit (b % 16) :: rest) =
      b :: unquoteBytes rest := by
  obtain ⟨h1, h2⟩ := hexPair_correct b hlt
  have hb : 16 * (b / 16) + b % 16 = b := by omega
  rw [unquoteBytes.eq_def]
  simp [h1, h2, hb]

theorem quoteBytes_cons (b : Nat) (bs : List Nat) :
    quoteBytes (b :: bs) =
      (if isSafeByte b then [Char.ofNat b]
        else ['%', hexUpperDigit (b / 16), hexUpperDigit (b % 16)]) ++ quoteBytes bs := by
  simp [quoteBytes]

theorem unquoteBytes_quoteBytes (bs : List Nat) (h : ∀ b ∈ bs, b < 256) :
    unquoteBytes (quoteBytes bs) = bs := by
  induction bs with
  | nil => rfl
  | cons b bs ih =>
    have hb : b < 256 := h b (by simp)
    have hrest : ∀ x ∈ bs, x < 256 := fun x hx => h x (by simp [hx])
    rw [quoteBytes_cons]
    by_cases hs : isSafeByte b = true
    · rw [if_pos hs, List.singleton_append, unquoteBytes_safe_cons b hb hs, ih hrest]
    · rw [if_neg hs, List.cons_append, List.cons_append, List.cons_append,
        List.nil_append, unquoteBytes_escape_cons b hb, ih hrest]

theorem utf8EncodeCharM_bytes_lt (v : Nat) (h : v < 1114112) :
    ∀ b ∈ utf8EncodeCharM v, b < 256 := by
  intro b hb
  unfold utf8EncodeCharM at hb
  split_ifs at hb with h1 h2 h3 <;> simp at hb <;> omega

theorem utf8DecodeAux_encode_cons (v : Nat) (hv : v < 1114112) (rest : List Nat)
    (fuel : Nat) :
    utf8DecodeAux (fuel + 1) (utf8EncodeCharM v ++ rest) =
      (utf8DecodeAux fuel rest).map (fun cs => Char.ofNat v :: cs) := by
  unfold utf8EncodeCharM
  split_ifs with h1 h2 h3
  · have hstep : utf8Step v rest = some (v, rest) := by
      unfold utf8Step
      rw [if_pos h1]
    rw [List.cons_append, List.nil_append]
    simp only [utf8DecodeAux, hstep]
  · have hval : (192 + v / 64 - 192) * 64 + (128 + v % 64 - 128) = v := by omega
    have hstep : utf8Step (192 + v / 64) ((128 + v % 64) :: rest) = some (v, rest) := by
      unfold utf8Step
      rw [if_neg (by omega), if_neg (by omega), if_pos (by omega)]
      simp only [utf8Cont1]
      rw [if_pos (by omega), hval]
    rw [List.cons_append, List.cons_append, List.nil_append]
    simp only [utf8DecodeAux, hstep]
  · have hval : (224 + v / 4096 - 224) * 4096 + (128 + v / 64 % 64 - 128) * 64 +
        (128 + v % 64 - 128) = v := by omega
    have hstep : utf8Step (224 + v / 4096)
        ((128 + v / 64 % 64) :: (128 + v % 64) :: rest) = some (v, rest) := by
      unfold utf8Step
      rw [if_neg (by omega), if_neg (by omega), if_neg (by omega), if_pos (by omega)]
      simp only [utf8Cont2]
      rw [if_pos (by omega), hval]
    rw [List.cons_append, List.cons_append, List.cons_append, List.nil_append]
    simp only [utf8DecodeAux, hstep]
  · have hval : (240 + v / 262144 - 240) * 262144 + (128 + v / 4096 % 64 - 128) * 4096 +
        (128 + v / 64 % 64 - 128) * 64 + (128 + v % 64 - 128) = v := by omega
    have hstep : utf8Step (240 + v / 262144)
        ((128 + v / 4096 % 64) :: (128 + v / 64 % 64) :: (128 + v % 64) :: rest) =
          some (v, rest) := by
      unfold utf8Step
      rw [if_neg (by omega), if_neg (by omega), if_neg (by omega), if_neg (by omega)]
      simp only [utf8Cont3]
      rw [if_pos (by omega), hval]
    rw [List.cons_append, List.cons_append, List.cons_append, List.cons_append,
      List.nil_append]
    simp only [utf8DecodeAux, hstep]

theorem utf8Encode_cons (c : Char) (s : List Char) :
    utf8Encode (c :: s) = utf8EncodeCharM c.toNat ++ utf8Encode s := by
  simp [utf8Encode]

theorem utf8Encode_bytes_lt (s : List Char) : ∀ b ∈ utf8Encode s, b < 256 := by
  induction s with
  | nil => intro b hb; simp [utf8Encode] at hb
  | cons c s ih =>
    intro b hb
    rw [utf8Encode_cons] at hb
    rcases List.mem_append.mp hb with hmem | hmem
    · exact utf8EncodeCharM_bytes_lt c.toNat (char_toNat_lt_scalarBound c) b hmem
    · exact ih b hmem

theorem utf8DecodeAux_utf8Encode (s : List Char) :
    ∀ fuel, s.length ≤ fuel → utf8DecodeAux fuel (utf8Encode s) = some s := by
  induction s with
  | nil =>
    intro fuel _
    simp [utf8Encode, utf8DecodeAux]
  | cons c s ih =>
    intro fuel hf
    obtain ⟨f, rfl⟩ : ∃ f, fuel = f + 1 := ⟨fuel - 1, by simp at hf; omega⟩
    rw [utf8Encode_cons,
      utf8DecodeAux_encode_cons c.toNat (char_toNat_lt_scalarBound c) (utf8Encode s) f,
      ih f (by simp at hf; omega)]
    simp

theorem length_le_utf8Encode_length (s : List Char) :
    s.length ≤ (utf8Encode s).length := by
  induction s with
  | nil => simp [utf8Encode]
  | cons c s ih =>
    rw [utf8Encode_cons, List.length_append, List.length_cons]
    have h1 : 1 ≤ (utf8EncodeCharM c.toNat).length := by
      unfold utf8EncodeCharM
      split_ifs <;> simp
    omega

theorem utf8DecodeM_utf8Encode (s : List Char) : utf8DecodeM (utf8Encode s) = some s :=
  utf8DecodeAux_utf8Encode s (utf8Encode s).length (length_le_utf8Encode_length s)

theorem escapedBytes_safe_cons (b : Nat) (hlt : b < 256) (hs : isSafeByte b = true)
    (rest : List Char) :
    escapedBytes (Char.ofNat b :: rest) = escapedBytes rest := by
  obtain ⟨_, h2⟩ := safeByte_char_all b hlt hs
  rw [escapedBytes.eq_def]
  simp [h2]

theorem escapedBytes_escape_cons (b : Nat) (hlt : b < 256) (rest : List Char) :
    escapedBytes ('%' :: hexUpperDigit (b / 16) :: hexUpperDigit (b % 16) :: rest) =
      b :: escapedBytes rest := by
  obtain ⟨h1, h2⟩ := hexPair_correct b hlt
  have hb : 16 * (b / 16) + b % 16 = b := by omega
  rw [escapedBytes.eq_def]
  simp [h1, h2, hb]

theorem escapedBytes_quoteBytes (bs : List Nat) (h : ∀ b ∈ bs, b < 256) :
    ∀ b ∈ escapedBytes (quoteBytes bs), isSafeByte b = false := by
  induction bs with
  | nil =>
    intro b hb
    simp [quoteBytes, escapedBytes] at hb
  | cons x bs ih =>
    intro b hb
    have hx : x < 256 := h x (by simp)
    have hrest : ∀ y ∈ bs, y < 256 := fun y hy => h y (by simp [hy])
    rw [quoteBytes_cons] at hb
    by_cases hs : isSafeByte x = true
    · rw [if_pos hs, List.singleton_append, escapedBytes_safe_cons x hx hs] at hb
      exact ih hrest b hb
    · rw [if_neg hs, List.cons_append, List.cons_append, List.cons_append,
        List.nil_append, escapedBytes_escape_cons x hx] at hb
      rcases List.mem_cons.mp hb with rfl | hb2
      · simpa using hs
      · exact ih hrest b hb2

theorem retryLoopFrom_returned (attempt : Outcome → AttemptRes) (script : Nat → Outcome)
    (i n : Nat) (r : Option String) (logs : List LogEvent)
    (hn : 1 ≤ n) (h : attempt (script i) = .returned r logs) :
    retryLoopFrom attempt script i n = ⟨.ok r, 1, 0, logs⟩ := by
  obtain ⟨m, rfl⟩ : ∃ m, n = m + 1 := ⟨n - 1, by omega⟩
  cases m with
  | zero => simp [retryLoopFrom, h]
  | succ k => simp [retryLoopFrom, h]

theorem retryLoopFrom_raised_all (attempt : Outcome → AttemptRes) (script : Nat → Outcome)
    (err : Nat → ClientErr) (hall : ∀ j, attempt (script j) = .raised (err j)) :
    ∀ n i, retryLoopFrom attempt script i (n + 1) =
      ⟨.error (err (i + n)), n + 1, n, []⟩ := by
  intro n
  induction n with
  | zero =>
    intro i
    simp [retryLoopFrom, hall i]
  | succ k ih =>
    intro i
    have harith : i + 1 + k = i + (k + 1) := by omega
    show retryLoopFrom attempt script i (k + 1 + 1) = _
    simp only [retryLoopFrom, hall i, ih (i + 1), harith]

theorem gate_invariant (w : Nat) (s : GateState) (h : GateReachable w s) :
    s.avail + s.inFlight = w := by
  induction h with
  | init => rfl
  | step s t hs hstep ih =>
    cases hstep with
    | arrive => simpa using ih
    | acquire hw ha =>
      simp only at ih ⊢
      omega
    | release o hf =>
      simp only at ih ⊢
      omega

end LucidLink

namespace LucidLink

/-! ## The claims -/

/-- C7: for every absolute path that starts with the configured
mount-point prefix (the prefix being stored with trailing `'/'` stripped at
construction), `_get_relative_path` returns the path with that prefix and
any leading `'/'` removed; for every path that does not start with the
prefix, it returns the path with leading `'/'` removed only. -/
theorem relative_path_mount_stripping (m p rest : List Char) :
    (get_relative_path (rstripSlashes m) (rstripSlashes m ++ rest) = lstripSlashes rest) ∧
    (¬ (rstripSlashes m).isPrefixOf p →
      get_relative_path (rstripSlashes m) p = lstripSlashes p) := by
  constructor
  · have hpre : (rstripSlashes m).isPrefixOf (rstripSlashes m ++ rest) :=
      List.isPrefixOf_iff_prefix.mpr (List.prefix_append _ _)
    simp only [get_relative_path, hpre, if_true, List.drop_left]
  · intro h
    simp only [get_relative_path]
    rw [if_neg (by simpa using h)]

theorem relative_path_mount_stripping_witness :
    (get_relative_path (rstripSlashes "/mnt/fs/".toList)
        (rstripSlashes "/mnt/fs/".toList ++ "/a/b.txt".toList) =
      lstripSlashes "/a/b.txt".toList) ∧
    (get_relative_path (rstripSlashes "/mnt/fs/".toList) "/elsewhere/c".toList =
      lstripSlashes "/elsewhere/c".toList) :=
  ⟨(relative_path_mount_stripping "/mnt/fs/".toList "/elsewhere/c".toList
      "/a/b.txt".toList).1,
   (relative_path_mount_stripping "/mnt/fs/".toList "/elsewhere/c".toList
      "/a/b.txt".toList).2 (by decide)⟩

/-- C8: for every relative path, percent-decoding the output of
`_encode_path_for_url` returns the original path, and no character of the
safe set (nor any other unescaped-safe byte) ever appears percent-escaped in
the encoded output: every percent-escaped byte of the output fails
`isSafeByte`, and the safe set `/[](),-_ .` consists of safe bytes. -/
theorem encode_roundtrip_and_safe_chars (s : List Char) :
    percentDecode (encode_path_for_url s) = some s ∧
    ∀ b ∈ escapedBytes (encode_path_for_url s), isSafeByte b = false := by
  constructor
  · show utf8DecodeM (unquoteBytes (quoteBytes (utf8Encode s))) = some s
    rw [unquoteBytes_quoteBytes (utf8Encode s) (utf8Encode_bytes_lt s)]
    exact utf8DecodeM_utf8Encode s
  · show ∀ b ∈ escapedBytes (quoteBytes (utf8Encode s)), isSafeByte b = false
    exact escapedBytes_quoteBytes (utf8Encode s) (utf8Encode_bytes_lt s)

theorem encode_roundtrip_and_safe_chars_witness :
    percentDecode (encode_path_for_url "a b%[x].txt".toList) = some ("a b%[x].txt".toList) ∧
    isSafeByte 37 = false :=
  ⟨(encode_roundtrip_and_safe_chars "a b%[x].txt".toList).1,
   (encode_roundtrip_and_safe_chars "a b%[x].txt".toList).2 37 (by decide)⟩

/-- C5: on both network paths (v2 slow path with a non-truthy
`fsentry_id`, and v3), a daemon response with HTTP status 400 on the first
request makes resolve log the Bad-Request warning and return no-link after
exactly one request, with no retries and no inter-attempt sleeps. -/
theorem status400_single_request (cfg : Config) (p : List Char) (fid : Option String)
    (body : List (String × String)) (script : Nat → Outcome)
    (hn : 1 ≤ cfg.retry_attempts) (hfid : optStrTruthy fid = false)
    (h0 : script 0 = .response 400 body) :
    (cfg.version = 2 →
      get_direct_link cfg true p fid script =
        ⟨none, [v2Url cfg p], 0, 1, [.warnBadRequest]⟩) ∧
    (cfg.version ≠ 2 →
      get_direct_link cfg true p fid script =
        ⟨none, [v3Url cfg p], 0, 1, [.warnBadRequest]⟩) := by
  have hv2 : v2Attempt cfg.filespace (script 0) = .returned none [.warnBadRequest] := by
    rw [h0]
    simp [v2Attempt]
  have hv3 : v3Attempt (script 0) = .returned none [.warnBadRequest] := by
    rw [h0]
    simp [v3Attempt]
  constructor
  · intro hv
    simp only [get_direct_link, if_pos hv, get_direct_link_v2, hfid, Bool.false_eq_true,
      if_false, if_true,
      retryLoopFrom_returned (v2Attempt cfg.filespace) script 0 cfg.retry_attempts none
        [.warnBadRequest] hn hv2]
    simp [finishNetworkCall]
  · intro hv
    simp only [get_direct_link, if_neg hv, get_direct_link_v3, if_true,
      retryLoopFrom_returned v3Attempt script 0 cfg.retry_attempts none
        [.warnBadRequest] hn hv3]
    simp [finishNetworkCall]

theorem status400_single_request_witness :
    get_direct_link ⟨7778, "/mnt".toList, 2, 10, 5, none⟩ true "/mnt/a".toList none
        (fun _ => .response 400 []) =
      ⟨none, [v2Url ⟨7778, "/mnt".toList, 2, 10, 5, none⟩ "/mnt/a".toList], 0, 1,
        [.warnBadRequest]⟩ :=
  (status400_single_request ⟨7778, "/mnt".toList, 2, 10, 5, none⟩ "/mnt/a".toList none
    [] (fun _ => .response 400 []) (by decide) (by decide) rfl).1 (by decide)

/-- C6: on both network paths, if every attempt fails with a
transport-level error then exactly `retry_attempts` requests are issued,
with `retry_attempts - 1` inter-attempt sleeps (each of the configured
`retry_delay`), the failure of the last attempt is re-raised as the terminating
error (caught and logged by the top-level handler), and resolve yields
no-link. -/
theorem transport_failure_retry_exhaustion (cfg : Config) (p : List Char)
    (fid : Option String) (err : Nat → Nat) (script : Nat → Outcome)
    (hn : 1 ≤ cfg.retry_attempts) (hfid : optStrTruthy fid = false)
    (hall : ∀ i, script i = .transport (err i)) :
    (cfg.version = 2 →
      get_direct_link cfg true p fid script =
        ⟨none, List.replicate cfg.retry_attempts (v2Url cfg p), cfg.retry_attempts - 1, 1,
          [.errorCaught (.client (.transport (err (cfg.retry_attempts - 1))))]⟩) ∧
    (cfg.version ≠ 2 →
      get_direct_link cfg true p fid script =
        ⟨none, List.replicate cfg.retry_attempts (v3Url cfg p), cfg.retry_attempts - 1, 1,
          [.errorCaught (.client (.transport (err (cfg.retry_attempts - 1))))]⟩) := by
  obtain ⟨n, hcfg⟩ : ∃ n, cfg.retry_attempts = n + 1 := ⟨cfg.retry_attempts - 1, by omega⟩
  have hall2 : ∀ j, v2Attempt cfg.filespace (script j) =
      .raised (ClientErr.transport (err j)) := by
    intro j
    rw [hall j]
    rfl
  have hall3 : ∀ j, v3Attempt (script j) = .raised (ClientErr.transport (err j)) := by
    intro j
    rw [hall j]
    rfl
  constructor
  · intro hv
    simp only [get_direct_link, if_pos hv, get_direct_link_v2, hfid, Bool.false_eq_true,
      if_false, if_true, hcfg,
      retryLoopFrom_raised_all (v2Attempt cfg.filespace) script
        (fun j => ClientErr.transport (err j)) hall2 n 0]
    simp [finishNetworkCall]
  · intro hv
    simp only [get_direct_link, if_neg hv, get_direct_link_v3, if_true, hcfg,
      retryLoopFrom_raised_all v3Attempt script
        (fun j => ClientErr.transport (err j)) hall3 n 0]
    simp [finishNetworkCall]

theorem transport_failure_retry_exhaustion_witness :
    get_direct_link ⟨7778, "/mnt".toList, 3, 10, 3, none⟩ true "/mnt/a".toList none
        (fun i => .transport i) =
      ⟨none, List.replicate 3 (v3Url ⟨7778, "/mnt".toList, 3, 10, 3, none⟩ "/mnt/a".toList),
        2, 1, [.errorCaught (.client (.transport 2))]⟩ :=
  (transport_failure_retry_exhaustion ⟨7778, "/mnt".toList, 3, 10, 3, none⟩
    "/mnt/a".toList none (fun i => i) (fun i => .transport i) (by decide) (by decide)
    (fun _ => rfl)).2 (by decide)

/-- C1 counterexample: calling resolve before the session is opened does
*not* yield a distinct programming-error signal.  On the v3 path the
`RuntimeError("Session not initialized")` raised at line 148 lies inside the
`try` block of the same function, so the top-level `except Exception` (line 176)
catches it, logs it, and returns `None` — the very same plain no-link result
every ordinary resolution failure produces.  The claim that this misuse is
surfaced distinctly to the caller is therefore false. -/
theorem resolve_before_open_counterexample :
    (get_direct_link ⟨8280, "/mnt".toList, 3, 10, 5, none⟩ false "/mnt/a".toList none
        (fun _ => .response 200 [("result", "lucid://x/y/z")])).link = none ∧
    (get_direct_link ⟨8280, "/mnt".toList, 3, 10, 5, none⟩ false "/mnt/a".toList none
        (fun _ => .response 200 [("result", "lucid://x/y/z")])).logs =
      [.errorCaught .sessionNotInitialized] := by
  constructor <;> rfl

/-- C1 (amended): resolve never raises to the caller for *any* input,
including calls issued before the session is opened: the v3 raised
`RuntimeError` and the v2 slow-path `TypeError` (from
`async with None`) are both caught by the top-level handler of resolve and
converted into a logged, plain no-link result, with no request issued; the
v2 fast path does not touch the session at all and even returns a link
normally before `open`.  No distinct programming-error signal reaches the
caller. -/
theorem resolve_never_raises_misuse_absorbed (cfg : Config) (p : List Char)
    (fid : Option String) (script : Nat → Outcome) :
    (cfg.version ≠ 2 →
      get_direct_link cfg false p fid script =
        ⟨none, [], 0, 0, [.errorCaught .sessionNotInitialized]⟩) ∧
    (cfg.version = 2 → optStrTruthy fid = false →
      get_direct_link cfg false p fid script =
        ⟨none, [], 0, 0, [.errorCaught .semaphoreNone]⟩) ∧
    (cfg.version = 2 → optStrTruthy fid = true → optStrTruthy cfg.filespace = true →
      get_direct_link cfg false p fid script =
        ⟨some (mkLucidLink (cfg.filespace.getD "") (fid.getD "")), [], 0, 0,
          [.debugGenerated]⟩) := by
  refine ⟨?_, ?_, ?_⟩
  · intro hv
    simp [get_direct_link, hv, get_direct_link_v3]
  · intro hv hf
    simp [get_direct_link, hv, get_direct_link_v2, hf]
  · intro hv hf hfs
    simp [get_direct_link, hv, get_direct_link_v2, hf, hfs]

theorem resolve_never_raises_misuse_absorbed_witness :
    (get_direct_link ⟨8280, "/mnt".toList, 3, 10, 5, none⟩ false "/mnt/a".toList none
        (fun _ => .transport 0) =
      ⟨none, [], 0, 0, [.errorCaught .sessionNotInitialized]⟩) ∧
    (get_direct_link ⟨8280, "/mnt".toList, 2, 10, 5, some "fs"⟩ false "/mnt/a".toList none
        (fun _ => .transport 0) =
      ⟨none, [], 0, 0, [.errorCaught .semaphoreNone]⟩) ∧
    (get_direct_link ⟨8280, "/mnt".toList, 2, 10, 5, some "fs"⟩ false "/mnt/a".toList
        (some "ID9") (fun _ => .transport 0) =
      ⟨some (mkLucidLink "fs" "ID9"), [], 0, 0, [.debugGenerated]⟩) :=
  ⟨(resolve_never_raises_misuse_absorbed ⟨8280, "/mnt".toList, 3, 10, 5, none⟩
      "/mnt/a".toList none (fun _ => .transport 0)).1 (by decide),
   (resolve_never_raises_misuse_absorbed ⟨8280, "/mnt".toList, 2, 10, 5, some "fs"⟩
      "/mnt/a".toList none (fun _ => .transport 0)).2.1 rfl (by decide),
   (resolve_never_raises_misuse_absorbed ⟨8280, "/mnt".toList, 2, 10, 5, some "fs"⟩
      "/mnt/a".toList (some "ID9") (fun _ => .transport 0)).2.2 rfl (by decide) (by decide)⟩

/-- C2 counterexample: a well-formed response whose status is neither
2xx nor 400 is *not* handled as claimed.  With status 500 on every attempt
and `retry_attempts = 2`, *two* requests are issued (the
`ClientResponseError` raised by `raise_for_status()` is a `ClientError`, so
it is retried), contradicting "does not retry … issuing exactly one
request"; and with status 303 carrying a `result` field, the call *returns
the link* instead of treating the response as an error. -/
theorem http_error_status_counterexample :
    (get_direct_link ⟨7778, "/mnt".toList, 3, 10, 2, none⟩ true "/mnt/a".toList none
        (fun _ => .response 500 [])).requests.length = 2 ∧
    (get_direct_link ⟨7778, "/mnt".toList, 3, 10, 2, none⟩ true "/mnt/a".toList none
        (fun _ => .response 303 [("result", "lucid://x/y/z")])).link =
      some "lucid://x/y/z" := by
  constructor <;> rfl

/-- C2 (amended): a well-formed response with status > 400 makes
`raise_for_status()` raise a `ClientResponseError` — a `ClientError` — so it
is subject to the same retry policy as transport failures: when every
attempt is answered with a status > 400, exactly `retry_attempts` requests
are issued and the call then yields no-link, the last status error being the
terminating, logged failure.  A response with status < 400 (2xx as well as
1xx/3xx) is not treated as an error at all: the attempt returns after
exactly one request, with the v3 result taken from the `result`
field. -/
theorem http_error_statuses_retried (cfg : Config) (p : List Char) (fid : Option String)
    (st : Nat → Nat) (bodies : Nat → List (String × String)) (script : Nat → Outcome)
    (hn : 1 ≤ cfg.retry_attempts) (hfid : optStrTruthy fid = false)
    (hscript : ∀ i, script i = .response (st i) (bodies i)) :
    ((∀ i, 400 < st i) →
      (cfg.version = 2 →
        get_direct_link cfg true p fid script =
          ⟨none, List.replicate cfg.retry_attempts (v2Url cfg p), cfg.retry_attempts - 1, 1,
            [.errorCaught (.client (.badStatus (st (cfg.retry_attempts - 1))))]⟩) ∧
      (cfg.version ≠ 2 →
        get_direct_link cfg true p fid script =
          ⟨none, List.replicate cfg.retry_attempts (v3Url cfg p), cfg.retry_attempts - 1, 1,
            [.errorCaught (.client (.badStatus (st (cfg.retry_attempts - 1))))]⟩)) ∧
    (st 0 < 400 → cfg.version ≠ 2 →
      (get_direct_link cfg true p fid script).requests.length = 1 ∧
      (get_direct_link cfg true p fid script).link = (bodies 0).lookup "result") := by
  constructor
  · intro hst
    obtain ⟨n, hcfg⟩ : ∃ n, cfg.retry_attempts = n + 1 := ⟨cfg.retry_attempts - 1, by omega⟩
    have hall2 : ∀ j, v2Attempt cfg.filespace (script j) =
        .raised (ClientErr.badStatus (st j)) := by
      intro j
      rw [hscript j]
      have h400 : ¬ st j = 400 := by have := hst j; omega
      simp [v2Attempt, h400, Nat.le_of_lt (hst j)]
    have hall3 : ∀ j, v3Attempt (script j) = .raised (ClientErr.badStatus (st j)) := by
      intro j
      rw [hscript j]
      have h400 : ¬ st j = 400 := by have := hst j; omega
      simp [v3Attempt, h400, Nat.le_of_lt (hst j)]
    constructor
    · intro hv
      simp only [get_direct_link, if_pos hv, get_direct_link_v2, hfid, Bool.false_eq_true,
        if_false, if_true, hcfg,
        retryLoopFrom_raised_all (v2Attempt cfg.filespace) script
          (fun j => ClientErr.badStatus (st j)) hall2 n 0]
      simp [finishNetworkCall]
    · intro hv
      simp only [get_direct_link, if_neg hv, get_direct_link_v3, if_true, hcfg,
        retryLoopFrom_raised_all v3Attempt script
          (fun j => ClientErr.badStatus (st j)) hall3 n 0]
      simp [finishNetworkCall]
  · intro hst hv
    have h400 : ¬ st 0 = 400 := by omega
    have hle : ¬ 400 ≤ st 0 := by omega
    have hstep : v3Attempt (script 0) =
        .returned ((bodies 0).lookup "result")
          (if ((bodies 0).lookup "result").isSome then [] else [.warnNoResult]) := by
      rw [hscript 0]
      cases hres : (bodies 0).lookup "result" <;> simp [v3Attempt, h400, hle, hres]
    have hcall : get_direct_link cfg true p fid script =
        finishNetworkCall (v3Url cfg p)
          ⟨.ok ((bodies 0).lookup "result"), 1, 0,
            if ((bodies 0).lookup "result").isSome then [] else [.warnNoResult]⟩ := by
      simp only [get_direct_link, if_neg hv, get_direct_link_v3, if_true,
        retryLoopFrom_returned v3Attempt script 0 cfg.retry_attempts
          ((bodies 0).lookup "result")
          (if ((bodies 0).lookup "result").isSome then [] else [.warnNoResult]) hn hstep]
    rw [hcall]
    simp [finishNetworkCall]

theorem http_error_statuses_retried_witness :
    (get_direct_link ⟨7778, "/mnt".toList, 3, 10, 2, none⟩ true "/mnt/a".toList none
        (fun _ => .response 500 []) =
      ⟨none, List.replicate 2 (v3Url ⟨7778, "/mnt".toList, 3, 10, 2, none⟩ "/mnt/a".toList),
        1, 1, [.errorCaught (.client (.badStatus 500))]⟩) ∧
    ((get_direct_link ⟨7778, "/mnt".toList, 3, 10, 2, none⟩ true "/mnt/a".toList none
        (fun _ => .response 200 [("result", "lucid://x/y/z")])).requests.length = 1 ∧
      (get_direct_link ⟨7778, "/mnt".toList, 3, 10, 2, none⟩ true "/mnt/a".toList none
        (fun _ => .response 200 [("result", "lucid://x/y/z")])).link =
        [("result", "lucid://x/y/z")].lookup "result") :=
  ⟨((http_error_statuses_retried ⟨7778, "/mnt".toList, 3, 10, 2, none⟩ "/mnt/a".toList none
      (fun _ => 500) (fun _ => []) (fun _ => .response 500 []) (by decide) (by decide)
      (fun _ => rfl)).1 (fun _ => by decide)).2 (by decide),
   (http_error_statuses_retried ⟨7778, "/mnt".toList, 3, 10, 2, none⟩ "/mnt/a".toList none
      (fun _ => 200) (fun _ => [("result", "lucid://x/y/z")])
      (fun _ => .response 200 [("result", "lucid://x/y/z")]) (by decide) (by decide)
      (fun _ => rfl)).2 (by decide) (by decide)⟩

/-- C3 counterexample: a v2 resolution that needs the network fallback
with no filespace configured does *not* fail immediately and does issue a
network request.  `_get_direct_link_v2` checks `self._filespace` only at
line 127, *after* the `GET /fsEntry` request succeeded and the entry id was
extracted: with a daemon answering `200 {"id": "abc123"}`, one request is
issued before the configuration error is logged and no-link returned —
contradicting "fails immediately … without issuing any network request". -/
theorem v2_missing_filespace_counterexample :
    (get_direct_link ⟨7778, "/mnt".toList, 2, 10, 5, none⟩ true "/mnt/a".toList none
        (fun _ => .response 200 [("id", "abc123")])).requests.length = 1 ∧
    (get_direct_link ⟨7778, "/mnt".toList, 2, 10, 5, none⟩ true "/mnt/a".toList none
        (fun _ => .response 200 [("id", "abc123")])).link = none ∧
    (get_direct_link ⟨7778, "/mnt".toList, 2, 10, 5, none⟩ true "/mnt/a".toList none
        (fun _ => .response 200 [("id", "abc123")])).logs = [.errFilespaceNotSet] := by
  refine ⟨rfl, rfl, rfl⟩

/-- C3 (amended): a v2 resolution that needs the network fallback with
no (truthy) filespace configured fails with the configuration error only
*after* the network request has been issued and has succeeded in producing
an entry id: the request is sent, and on a < 400 response whose body carries
`id`, the missing filespace is detected, logged, and no-link is returned
(after exactly one request in this scenario). -/
theorem v2_missing_filespace_after_request (cfg : Config) (p : List Char)
    (fid : Option String) (st : Nat) (body : List (String × String)) (fsid : String)
    (script : Nat → Outcome)
    (hv : cfg.version = 2) (hfs : optStrTruthy cfg.filespace = false)
    (hfid : optStrTruthy fid = false) (hn : 1 ≤ cfg.retry_attempts)
    (h0 : script 0 = .response st body) (hst : st < 400)
    (hid : body.lookup "id" = some fsid) :
    get_direct_link cfg true p fid script =
      ⟨none, [v2Url cfg p], 0, 1, [.errFilespaceNotSet]⟩ := by
  have h400 : ¬ st = 400 := by omega
  have hle : ¬ 400 ≤ st := by omega
  have hstep : v2Attempt cfg.filespace (script 0) =
      .returned none [.errFilespaceNotSet] := by
    rw [h0]
    simp [v2Attempt, h400, hle, hid, hfs]
  simp only [get_direct_link, if_pos hv, get_direct_link_v2, hfid, Bool.false_eq_true,
    if_false, if_true,
    retryLoopFrom_returned (v2Attempt cfg.filespace) script 0 cfg.retry_attempts none
      [.errFilespaceNotSet] hn hstep]
  simp [finishNetworkCall]

theorem v2_missing_filespace_after_request_witness :
    get_direct_link ⟨7778, "/mnt".toList, 2, 10, 5, none⟩ true "/mnt/a".toList none
        (fun _ => .response 200 [("id", "abc123")]) =
      ⟨none, [v2Url ⟨7778, "/mnt".toList, 2, 10, 5, none⟩ "/mnt/a".toList], 0, 1,
        [.errFilespaceNotSet]⟩ :=
  v2_missing_filespace_after_request ⟨7778, "/mnt".toList, 2, 10, 5, none⟩ "/mnt/a".toList
    none 200 [("id", "abc123")] "abc123" (fun _ => .response 200 [("id", "abc123")])
    rfl (by decide) (by decide) (by decide) rfl (by decide) (by decide)

/-- C4 counterexample: "entryId supplied" does not guarantee the fast
path, because the code tests Python truthiness (`if fsentry_id:`), and the
empty string is falsy.  With version 2, filespace `"myfs"` configured, and
`fsentry_id = ""` supplied, the call takes the *network* path: it issues a
request (here failing with a transport error and retrying once, since
`retry_attempts = 1`), acquires a semaphore slot, and returns no-link — not
the synthesized `lucid://myfs/file/` with zero requests and zero slot
acquisitions that the claim asserts. -/
theorem v2_fast_path_empty_id_counterexample :
    (get_direct_link ⟨7778, "/mnt".toList, 2, 10, 1, some "myfs"⟩ true "/mnt/a".toList
        (some "") (fun _ => .transport 0)).requests.length = 1 ∧
    (get_direct_link ⟨7778, "/mnt".toList, 2, 10, 1, some "myfs"⟩ true "/mnt/a".toList
        (some "") (fun _ => .transport 0)).acquires = 1 ∧
    (get_direct_link ⟨7778, "/mnt".toList, 2, 10, 1, some "myfs"⟩ true "/mnt/a".toList
        (some "") (fun _ => .transport 0)).link = none := by
  refine ⟨rfl, rfl, rfl⟩

/-- C4 (amended): for every resolve call with version 2 and a *truthy*
(non-empty) `fsentry_id` supplied and a truthy filespace name, resolve
returns exactly `lucid://{filespace}/file/{fsentry_id}` with no network
request issued and no semaphore slot acquired; if the filespace name is not
truthy (absent or empty), it logs the configuration error and returns
no-link, likewise with no request and no slot.  An `fsentry_id` supplied as
the empty string is falsy and takes the network path instead. -/
theorem v2_fast_path_nonempty_id (cfg : Config) (so : Bool) (p : List Char)
    (fsid : String) (script : Nat → Outcome)
    (hv : cfg.version = 2) (hfsid : fsid ≠ "") :
    (optStrTruthy cfg.filespace = true →
      get_direct_link cfg so p (some fsid) script =
        ⟨some (mkLucidLink (cfg.filespace.getD "") fsid), [], 0, 0, [.debugGenerated]⟩) ∧
    (optStrTruthy cfg.filespace = false →
      get_direct_link cfg so p (some fsid) script =
        ⟨none, [], 0, 0, [.errFilespaceNotSet]⟩) := by
  have htruthy : optStrTruthy (some fsid) = true := by
    simp [optStrTruthy, hfsid]
  constructor
  · intro hfs
    simp [get_direct_link, hv, get_direct_link_v2, htruthy, hfs]
  · intro hfs
    simp [get_direct_link, hv, get_direct_link_v2, htruthy, hfs]

theorem v2_fast_path_nonempty_id_witness :
    (get_direct_link ⟨7778, "/mnt".toList, 2, 10, 5, some "myfilespace"⟩ true
        "/mnt/a".toList (some "ID42") (fun _ => .transport 0) =
      ⟨some (mkLucidLink "myfilespace" "ID42"), [], 0, 0, [.debugGenerated]⟩) ∧
    (get_direct_link ⟨7778, "/mnt".toList, 2, 10, 5, none⟩ true
        "/mnt/a".toList (some "ID42") (fun _ => .transport 0) =
      ⟨none, [], 0, 0, [.errFilespaceNotSet]⟩) :=
  ⟨(v2_fast_path_nonempty_id ⟨7778, "/mnt".toList, 2, 10, 5, some "myfilespace"⟩ true
      "/mnt/a".toList "ID42" (fun _ => .transport 0) rfl (by decide)).1 (by decide),
   (v2_fast_path_nonempty_id ⟨7778, "/mnt".toList, 2, 10, 5, none⟩ true
      "/mnt/a".toList "ID42" (fun _ => .transport 0) rfl (by decide)).2 (by decide)⟩

theorem finishNetworkCall_requests (url : String) (lr : LoopOut) :
    (finishNetworkCall url lr).requests = List.replicate lr.requests url := by
  rcases lr with ⟨res, q, sl, logs⟩
  cases res <;> rfl

theorem finishNetworkCall_acquires (url : String) (lr : LoopOut) :
    (finishNetworkCall url lr).acquires = 1 := by
  rcases lr with ⟨res, q, sl, logs⟩
  cases res <;> rfl

/-- C9: the concurrency gate bounds the number of simultaneously
outstanding network requests by `max_workers`: in every state reachable by
any interleaving of concurrent resolve calls against the semaphore of
capacity `cfg.max_workers` (created by `__aenter__`), at most
`cfg.max_workers` calls hold a slot — and every call that issues at least
one network request acquires the semaphore exactly once (releasing it on
success, failure, or exception alike, per the `release` step of the
model). -/
theorem gate_bounds_inflight_requests (cfg : Config) (s : GateState)
    (hs : GateReachable cfg.max_workers s) (so : Bool) (p : List Char)
    (fid : Option String) (script : Nat → Outcome)
    (hreq : (get_direct_link cfg so p fid script).requests ≠ []) :
    s.inFlight ≤ cfg.max_workers ∧
    (get_direct_link cfg so p fid script).acquires = 1 := by
  constructor
  · have hinv := gate_invariant cfg.max_workers s hs
    omega
  · by_cases hv : cfg.version = 2
    · rw [get_direct_link, if_pos hv] at hreq ⊢
      by_cases hf : optStrTruthy fid = true
      · by_cases hfs : optStrTruthy cfg.filespace = true
        · rw [get_direct_link_v2, if_pos hf, if_pos hfs] at hreq
          exact absurd rfl hreq
        · rw [get_direct_link_v2, if_pos hf, if_neg hfs] at hreq
          exact absurd rfl hreq
      · by_cases hso : so = true
        · rw [get_direct_link_v2, if_neg hf, if_pos hso]
          exact finishNetworkCall_acquires _ _
        · rw [get_direct_link_v2, if_neg hf, if_neg hso] at hreq
          exact absurd rfl hreq
    · rw [get_direct_link, if_neg hv] at hreq ⊢
      by_cases hso : so = true
      · rw [get_direct_link_v3, if_pos hso]
        exact finishNetworkCall_acquires _ _
      · rw [get_direct_link_v3, if_neg hso] at hreq
        exact absurd rfl hreq

theorem gate_bounds_inflight_requests_witness :
    (⟨2, 0, 0, 0⟩ : GateState).inFlight ≤
      (⟨7778, "/mnt".toList, 3, 2, 1, none⟩ : Config).max_workers ∧
    (get_direct_link ⟨7778, "/mnt".toList, 3, 2, 1, none⟩ true "/mnt/a".toList none
      (fun _ => .transport 0)).acquires = 1 :=
  gate_bounds_inflight_requests ⟨7778, "/mnt".toList, 3, 2, 1, none⟩ ⟨2, 0, 0, 0⟩
    GateReachable.init true "/mnt/a".toList none (fun _ => .transport 0) (by decide)

/-- C10: for every configured version value other than 2 — including
values outside the documented set, such as 0, 1, or 4 — `get_direct_link`
dispatches to the v3 network path, and every request it issues goes to the
`/fsEntry/direct-link` endpoint URL; no validation of the version value is
performed anywhere (the construction stores `version` verbatim, and this
theorem holds for every integer ≠ 2). -/
theorem non_v2_version_dispatches_v3 (cfg : Config) (so : Bool) (p : List Char)
    (fid : Option String) (script : Nat → Outcome) (hv : cfg.version ≠ 2) :
    get_direct_link cfg so p fid script = get_direct_link_v3 cfg so p script ∧
    ∀ u ∈ (get_direct_link cfg so p fid script).requests, u = v3Url cfg p := by
  have hd : get_direct_link cfg so p fid script = get_direct_link_v3 cfg so p script := by
    rw [get_direct_link, if_neg hv]
  refine ⟨hd, ?_⟩
  rw [hd]
  intro u hu
  by_cases hso : so = true
  · rw [get_direct_link_v3, if_pos hso, finishNetworkCall_requests] at hu
    exact List.eq_of_mem_replicate hu
  · rw [get_direct_link_v3, if_neg hso] at hu
    simp at hu

theorem non_v2_version_dispatches_v3_witness :
    (get_direct_link ⟨7778, "/mnt".toList, 4, 10, 1, none⟩ true "/mnt/a".toList
        (some "ID9") (fun _ => .transport 0) =
      get_direct_link_v3 ⟨7778, "/mnt".toList, 4, 10, 1, none⟩ true "/mnt/a".toList
        (fun _ => .transport 0)) ∧
    v3Url ⟨7778, "/mnt".toList, 4, 10, 1, none⟩ "/mnt/a".toList =
      v3Url ⟨7778, "/mnt".toList, 4, 10, 1, none⟩ "/mnt/a".toList :=
  ⟨(non_v2_version_dispatches_v3 ⟨7778, "/mnt".toList, 4, 10, 1, none⟩ true
      "/mnt/a".toList (some "ID9") (fun _ => .transport 0) (by decide)).1,
   (non_v2_version_dispatches_v3 ⟨7778, "/mnt".toList, 4, 10, 1, none⟩ true
      "/mnt/a".toList (some "ID9") (fun _ => .transport 0) (by decide)).2
     (v3Url ⟨7778, "/mnt".toList, 4, 10, 1, none⟩ "/mnt/a".toList) (by decide)⟩

end LucidLink
